import Mathlib

/-!
Verification of `package/MDAnalysis/lib/pkdtree.py` (class `PeriodicKDTree`).

Coordinates are embedded as exact rationals; the machine floats of the
source become `ℚ`.  The class state (`box`, `built`, the data stored in the
wrapped k-d tree, and the cached `_indices` result) becomes an explicit
record, and each method becomes a state-passing function returning the new
state together with an optional raised error.
-/

/-- A 3-dimensional coordinate vector, one rational per axis. -/
structure Vec3 where
  x : ℚ
  y : ℚ
  z : ℚ
deriving DecidableEq, Repr

instance : Add Vec3 := ⟨fun a b => ⟨a.x + b.x, a.y + b.y, a.z + b.z⟩⟩

instance : Zero Vec3 := ⟨⟨0, 0, 0⟩⟩

theorem Vec3.add_def (a b : Vec3) : a + b = ⟨a.x + b.x, a.y + b.y, a.z + b.z⟩ := rfl

@[simp] theorem Vec3.add_zero (v : Vec3) : v + 0 = v := by
  cases v; simp [Vec3.add_def]; exact ⟨rfl, rfl, rfl⟩

/-- Sum of a list of vectors (used to state the subset-sum characterisation
of the generated images). -/
def vecSum (l : List Vec3) : Vec3 := l.foldr (· + ·) 0

/-- The Python exceptions the module raises, by the condition that raises
them (the source raises bare `Exception` with distinct messages; the spec
names them ConfigurationError, RangeError, ShapeError, NotBuiltError). -/
inductive PKTError where
  | config
  | range
  | shape
  | notBuilt
deriving DecidableEq, Repr

/-- One coordinate of the wrapping step
`p - np.where(box > 0.0, np.floor(p / box) * box, 0.0)`:
on a periodic axis (`0 < b`) the coordinate is folded into `[0, b)`,
on a non-periodic axis it passes through unchanged. -/
def wrap1 (b p : ℚ) : ℚ := p - (if 0 < b then (⌊p / b⌋ : ℚ) * b else 0)

/-- Componentwise wrapping of a point into the central cell. -/
def wrap (box p : Vec3) : Vec3 := ⟨wrap1 box.x p.x, wrap1 box.y p.y, wrap1 box.z p.z⟩

/-- Box normalisation from `__init__`: a non-positive entry is the flag for
a non-periodic axis and is normalised to `0` (the `np.inf` case of the
source has no rational counterpart and also normalises to `0`). -/
def normalizeBox (b : Vec3) : Vec3 :=
  ⟨if 0 < b.x then b.x else 0, if 0 < b.y then b.y else 0, if 0 < b.z then b.z else 0⟩

/-- The mutable state of one `PeriodicKDTree` object: the normalised box,
the built flag, the wrapped coordinates held by the underlying k-d tree,
and the cached `_indices` of the most recent search (`none` models the
Python `None`). -/
structure PeriodicKDTree where
  box : Vec3
  built : Bool
  data : List Vec3
  indices : Option (List ℕ)
deriving DecidableEq, Repr

/-- Constructor `__init__(box)`: rejects a box that is not length 3 or has
no periodic axis left after normalisation; starts unbuilt with an empty
`_indices` list. -/
def initTree (boxIn : List ℚ) : Except PKTError PeriodicKDTree :=
  if boxIn.length ≠ 3 then .error .config
  else if normalizeBox ⟨boxIn.getD 0 0, boxIn.getD 1 0, boxIn.getD 2 0⟩ = 0 then
    .error .config
  else
    .ok { box := normalizeBox ⟨boxIn.getD 0 0, boxIn.getD 1 0, boxIn.getD 2 0⟩,
          built := false, data := [], indices := some [] }

/-- Squared Euclidean distance between two points. -/
def sqDist (a b : Vec3) : ℚ :=
  (a.x - b.x) ^ 2 + (a.y - b.y) ^ 2 + (a.z - b.z) ^ 2

/-- Modelled from the spec: the radius query of the external spatial index
(`Bio.KDTree._CKDTree.KDTree.search_center_radius` / `get_indices`, not
part of this repository).  Per the spec it returns the indices of all
stored points whose Euclidean distance to the center is at most the
radius, compared via squared distances; a negative radius accepts no
point. -/
def kdtQuery (data : List Vec3) (c : Vec3) (r : ℚ) : List ℕ :=
  (List.range data.length).filter
    (fun i => decide (0 ≤ r ∧ sqDist (data.getD i 0) c ≤ r * r))

/-- Interpret a row of the input coordinate array as a vector (rows are
checked to have exactly 3 entries before this is meaningful). -/
def rowVec (row : List ℚ) : Vec3 := ⟨row.getD 0 0, row.getD 1 0, row.getD 2 0⟩

/-- Method `set_coords(coords)`: rejects coordinates at magnitude 1e6 or
beyond, then shape-checks for an (N, 3) array, then stores the wrapped
coordinates in the tree and marks the object built.  The cached `_indices`
field is not touched by the source. -/
def set_coords (t : PeriodicKDTree) (coords : List (List ℚ)) :
    PeriodicKDTree × Option PKTError :=
  if ∃ q ∈ coords.flatten, q ≤ -1000000 ∨ 1000000 ≤ q then (t, some .range)
  else if coords.length = 0 ∨ ∃ row ∈ coords, row.length ≠ 3 then (t, some .shape)
  else
    ({ t with data := coords.map (fun row => wrap t.box (rowVec row)), built := true },
     none)

/-- Per-axis edge sensitivity from `find_centers`:
`extents = self.box/2.0; extents = np.where(extents > radius, radius, extents)`. -/
def extent1 (b r : ℚ) : ℚ := if b / 2 > r then r else b / 2

/-- One iteration of the displacement loop of `find_centers` for a single
axis with box length `b` and wrapped center coordinate `c`: close to the
upper face produces the lower image `-b`, close to the lower face the
upper image `b`, otherwise no image along this axis. -/
def axisDisp1 (b c r : ℚ) : Option ℚ :=
  if 0 < extent1 b r then
    if b - c < extent1 b r then some (-b)
    else if c < extent1 b r then some b
    else none
  else none

/-- The per-axis displacement vectors collected by the loop
`for i in range(self.dim)` of `find_centers`: each kept displacement is a
zero vector except at its own axis. -/
def baseDisplacements (box wc : Vec3) (r : ℚ) : List Vec3 :=
  [(axisDisp1 box.x wc.x r).map (fun q => Vec3.mk q 0 0),
   (axisDisp1 box.y wc.y r).map (fun q => Vec3.mk 0 q 0),
   (axisDisp1 box.z wc.z r).map (fun q => Vec3.mk 0 0 q)].filterMap id

/-- One outer iteration (fixed `start`) of the combination loop of
`find_centers`: `for i in range(start+1, len(displacements)):
displacements.append(displacements[start]+displacements[i])`.  The Python
`range` fixes its end at the length the list has when the inner loop
starts, and the appended entries sit past every index the body reads, so
reading from the list as it was at entry is exact. -/
def combineInner (ds : List Vec3) (start : ℕ) : List Vec3 :=
  ds ++ (List.range' (start + 1) (ds.length - (start + 1))).map
    (fun i => ds.getD start 0 + ds.getD i 0)

/-- The full combination loop of `find_centers`:
`for start in range(n_displacements - 1, -1, -1)` with `n_displacements`
the length before the loop, guarded by `if n_displacements > 1`. -/
def combineAll (ds : List Vec3) : List Vec3 :=
  if ds.length > 1 then ((List.range ds.length).reverse).foldl combineInner ds else ds

/-- Method `find_centers(center, radius)`: the wrapped center followed by
the wrapped center translated by each displacement the combination loop
produced. -/
def find_centers (box center : Vec3) (radius : ℚ) : List Vec3 :=
  wrap box center ::
    (combineAll (baseDisplacements box (wrap box center) radius)).map
      (fun d => wrap box center + d)

/-- The accumulation loop of `search`: for each center the tree is queried;
on the first iteration the result is stored, on every later iteration the
source evaluates `np.append(self._indices, np.arange(2))` and discards the
returned fresh array, leaving the stored indices unchanged. -/
def searchLoop (data : List Vec3) (r : ℚ) (acc : Option (List ℕ)) :
    List Vec3 → Option (List ℕ)
  | [] => acc
  | c :: cs =>
      match acc with
      | none => searchLoop data r (some (kdtQuery data c r)) cs
      | some a => searchLoop data r (some a) cs

/-- Insertion of one index into an ascending duplicate-free list, keeping
it ascending and duplicate-free. -/
def insertUniq (n : ℕ) : List ℕ → List ℕ
  | [] => [n]
  | m :: ms => if n < m then n :: m :: ms else if n = m then m :: ms else m :: insertUniq n ms

/-- The post-processing `np.sort(np.unique(self._indices))`: the ascending
list of the distinct values. -/
def sortUnique (l : List ℕ) : List ℕ := l.foldr insertUniq []

/-- The query center array read as a vector once its length is checked. -/
def centerVec (center : List ℚ) : Vec3 := ⟨center.getD 0 0, center.getD 1 0, center.getD 2 0⟩

/-- Method `search(center, radius)`: raises when unbuilt, then when the
center is not a length-3 vector; otherwise clears `_indices`, runs the
accumulation loop over the image centers and, when the loop left a result,
stores it sorted with duplicates removed. -/
def search (t : PeriodicKDTree) (center : List ℚ) (radius : ℚ) :
    PeriodicKDTree × Option PKTError :=
  if t.built = false then (t, some .notBuilt)
  else if center.length ≠ 3 then (t, some .shape)
  else
    ({ t with indices :=
        (searchLoop t.data radius none
            (find_centers t.box (centerVec center) radius)).map sortUnique },
     none)

/-- Method `get_indices()`. -/
def get_indices (t : PeriodicKDTree) : Option (List ℕ) := t.indices

/-- Modelled from the spec: the intended accumulation across image queries,
the union of the index sets returned by every per-image query, deduplicated
and sorted ascending. -/
def unionSearch (t : PeriodicKDTree) (center : Vec3) (radius : ℚ) : List ℕ :=
  sortUnique ((find_centers t.box center radius).map
    (fun c => kdtQuery t.data c radius)).flatten

/-- Modelled from the spec: squared minimum-image separation along one
axis, the square of the least distance of `d` to an integer multiple of
the box length (the axis passes through for a non-periodic axis). -/
def minImageSq1 (b d : ℚ) : ℚ :=
  if 0 < b then min (d - ⌊d / b⌋ * b) (b - (d - ⌊d / b⌋ * b)) ^ 2 else d ^ 2

/-- Modelled from the spec: squared minimum-image distance between two
points, minimised explicitly over all periodic translations. -/
def minImageSq (box a c : Vec3) : ℚ :=
  minImageSq1 box.x (a.x - c.x) + minImageSq1 box.y (a.y - c.y) + minImageSq1 box.z (a.z - c.z)

/-- Modelled from the spec: the brute-force reference result, every index
whose minimum-image distance to the center is at most the radius. -/
def bruteForceSearch (box : Vec3) (points : List Vec3) (center : Vec3) (r : ℚ) : List ℕ :=
  (List.range points.length).filter
    (fun i => decide (0 ≤ r ∧ minImageSq box (points.getD i 0) center ≤ r * r))

/-- A freshly constructed tree with box `[10, 10, 10]`, as `initTree` returns it. -/
def freshTree : PeriodicKDTree := ⟨⟨10, 10, 10⟩, false, [], some []⟩

/-- The point set of the demonstration block at the bottom of the source
file: the last two points wrap to `[1, 9, 1]` and `[1, 1, 3]`. -/
def demoPoints : List (List ℚ) := [[2, 2, 2], [5, 5, 5], [11/10, 11/10, 11/10], [11, -11, 11], [21, 21, 3]]

/-- The demonstration tree after `set_coords(demoPoints)`. -/
def demoTree : PeriodicKDTree := (set_coords freshTree demoPoints).1

/-- A one-point tree holding the wrapped point `[9, 5, 5]`. -/
def treeNearUpper : PeriodicKDTree := (set_coords freshTree [[9, 5, 5]]).1

/-- A one-point tree holding the wrapped point `[0, 5, 5]`. -/
def treeAtLower : PeriodicKDTree := (set_coords freshTree [[0, 5, 5]]).1

/-- A one-point tree holding the wrapped point `[2, 2, 2]`. -/
def treeMid : PeriodicKDTree := (set_coords freshTree [[2, 2, 2]]).1

/-- A built tree that already holds a search result `[0]`. -/
def treeWithResult : PeriodicKDTree := ⟨⟨10, 10, 10⟩, true, [⟨2, 2, 2⟩], some [0]⟩

theorem wrap1_idempotent (b p : ℚ) : wrap1 b (wrap1 b p) = wrap1 b p := by
  by_cases hb : 0 < b
  · have hfr : (p - (⌊p / b⌋ : ℚ) * b) / b = Int.fract (p / b) := by
      rw [Int.fract]
      field_simp
      ring
    simp only [wrap1, if_pos hb, hfr, Int.floor_fract]
    push_cast
    ring
  · simp [wrap1, hb]

theorem mem_insertUniq (n m : ℕ) (l : List ℕ) : m ∈ insertUniq n l ↔ m = n ∨ m ∈ l := by
  induction l with
  | nil => simp [insertUniq]
  | cons a as ih =>
      simp only [insertUniq]
      split
      · simp [List.mem_cons]
      · split
        · rename_i h1 h2
          subst h2
          simp [List.mem_cons]
        · simp [List.mem_cons, ih]
          tauto

theorem sorted_insertUniq (n : ℕ) (l : List ℕ) (h : l.Sorted (· < ·)) :
    (insertUniq n l).Sorted (· < ·) := by
  induction l with
  | nil => simp [insertUniq]
  | cons a as ih =>
      rw [List.sorted_cons] at h
      simp only [insertUniq]
      split
      · rename_i h1
        rw [List.sorted_cons]
        refine ⟨?_, by rw [List.sorted_cons]; exact h⟩
        intro b hb
        rcases List.mem_cons.mp hb with rfl | hb
        · exact h1
        · exact lt_trans h1 (h.1 b hb)
      · split
        · rw [List.sorted_cons]; exact h
        · rename_i h1 h2
          have han : a < n := by omega
          rw [List.sorted_cons]
          refine ⟨?_, ih h.2⟩
          intro b hb
          rcases (mem_insertUniq n b as).mp hb with rfl | hb
          · exact han
          · exact h.1 b hb

theorem sortUnique_sorted (l : List ℕ) : (sortUnique l).Sorted (· < ·) := by
  induction l with
  | nil => simp [sortUnique]
  | cons a as ih => exact sorted_insertUniq a _ ih

theorem combineAll_nil : combineAll [] = [] := rfl

theorem combineAll_single (a : Vec3) : combineAll [a] = [a] := rfl

theorem combineAll_pair (a b : Vec3) : combineAll [a, b] = [a, b, a + b] := rfl

theorem combineAll_triple (a b c : Vec3) :
    combineAll [a, b, c] = [a, b, c, b + c, a + b, a + c, a + (b + c)] := rfl

theorem sublists_pair (a b : Vec3) : [a, b].sublists = [[], [a], [b], [a, b]] := rfl

theorem sublists_triple (a b c : Vec3) :
    [a, b, c].sublists = [[], [a], [b], [a, b], [c], [a, c], [b, c], [a, b, c]] := rfl

theorem centersSubsets (wc : Vec3) (ds : List Vec3) (h : ds.length ≤ 3) :
    (wc :: (combineAll ds).map (fun d => wc + d)).length = 2 ^ ds.length ∧
    (∀ v, v ∈ wc :: (combineAll ds).map (fun d => wc + d) ↔
      v = wc ∨ ∃ s ∈ ds.sublists, s ≠ [] ∧ v = wc + vecSum s) := by
  rcases ds with _ | ⟨a, _ | ⟨b, _ | ⟨c, _ | ⟨d, tl⟩⟩⟩⟩
  · refine ⟨rfl, fun v => ?_⟩
    simp [combineAll_nil, vecSum]
  · refine ⟨rfl, fun v => ?_⟩
    simp [combineAll_single, vecSum]
  · refine ⟨rfl, fun v => ?_⟩
    simp [combineAll_pair, sublists_pair, vecSum]
  · refine ⟨rfl, fun v => ?_⟩
    simp [combineAll_triple, sublists_triple, vecSum]
    tauto
  · simp at h

theorem baseDisplacements_len (box wc : Vec3) (r : ℚ) :
    (baseDisplacements box wc r).length ≤ 3 := by
  have h := List.length_filterMap_le (id : Option Vec3 → Option Vec3)
    [(axisDisp1 box.x wc.x r).map (fun q => Vec3.mk q 0 0),
     (axisDisp1 box.y wc.y r).map (fun q => Vec3.mk 0 q 0),
     (axisDisp1 box.z wc.z r).map (fun q => Vec3.mk 0 0 q)]
  simpa [baseDisplacements] using h

theorem searchLoop_some (data : List Vec3) (r : ℚ) (a : List ℕ) (cs : List Vec3) :
    searchLoop data r (some a) cs = some a := by
  induction cs with
  | nil => rfl
  | cons c cs ih => simpa [searchLoop] using ih

theorem search_built_eval (t : PeriodicKDTree) (center : List ℚ) (radius : ℚ)
    (hb : t.built = true) (hc : center.length = 3) :
    search t center radius =
      ({ t with indices := some (sortUnique (kdtQuery t.data (wrap t.box (centerVec center)) radius)) }, none) := by
  rw [search, if_neg (by simp [hb]), if_neg (by simp [hc])]
  rw [find_centers]
  simp [searchLoop, searchLoop_some]

/-- C9: wrapping is idempotent, componentwise on every axis, for every box
and point. -/
theorem C9_wrap_idempotent (box p : Vec3) : wrap box (wrap box p) = wrap box p := by
  simp [wrap, wrap1_idempotent]

/-- C6: a completed search stores an ascending, duplicate-free index list. -/
theorem C6_result_sorted_nodup (t : PeriodicKDTree) (center : List ℚ) (radius : ℚ)
    (h : (search t center radius).2 = none) :
    ∃ l, (search t center radius).1.indices = some l ∧ l.Nodup ∧ l.Sorted (· ≤ ·) := by
  by_cases hb : t.built = false
  · simp [search, hb] at h
  · by_cases hc : center.length = 3
    · rw [search_built_eval t center radius (by simpa using hb) hc]
      refine ⟨sortUnique (kdtQuery t.data (wrap t.box (centerVec center)) radius), rfl, ?_, ?_⟩
      · exact (sortUnique_sorted _).nodup
      · exact (sortUnique_sorted _).le_of_lt
    · rw [search, if_neg hb, if_pos hc] at h
      simp at h

/-- C8: search raises NotBuiltError exactly when unbuilt; once built it
raises ShapeError exactly when the center is not 3-dimensional, and in
every other case on a built tree it completes without an error. -/
theorem C8_search_error_conditions (t : PeriodicKDTree) (center : List ℚ) (radius : ℚ) :
    ((search t center radius).2 = some PKTError.notBuilt ↔ t.built = false) ∧
    (t.built = true → ((search t center radius).2 = some PKTError.shape ↔ center.length ≠ 3)) ∧
    (t.built = true → center.length = 3 → (search t center radius).2 = none) := by
  by_cases hb : t.built = false
  · refine ⟨by simp [search, hb], fun h => ?_, fun h => ?_⟩
    · rw [hb] at h; cases h
    · rw [hb] at h; cases h
  · by_cases hc : center.length = 3
    · rw [search_built_eval t center radius (by simpa using hb) hc]
      simp [hb, hc]
    · refine ⟨?_, fun _ => ?_, fun _ h => absurd h hc⟩
      · simp [search, hb, hc]
      · simp [search, hb, hc]

/-- C10: when search raises (unbuilt or bad center shape), the raise
happens before the cached result is cleared, so the stored indices of the
previous successful search survive and get_indices still returns them. -/
theorem C10_error_leaves_result (t : PeriodicKDTree) (center : List ℚ) (radius : ℚ)
    (e : PKTError) (h : (search t center radius).2 = some e) :
    (search t center radius).1 = t ∧
    get_indices (search t center radius).1 = get_indices t := by
  by_cases hb : t.built = false
  · rw [search, if_pos hb]
    exact ⟨rfl, rfl⟩
  · by_cases hc : center.length = 3
    · rw [search_built_eval t center radius (by simpa using hb) hc] at h
      cases h
    · rw [search, if_neg hb, if_pos hc]
      exact ⟨rfl, rfl⟩

/-- C5 (amended): set_coords replaces the stored point data and marks the
tree built, but never touches the cached result: the indices field is the
same after every call, successful or not. -/
theorem C5_set_coords_keeps_result (t : PeriodicKDTree) (coords : List (List ℚ)) :
    (set_coords t coords).1.indices = t.indices ∧
    get_indices (set_coords t coords).1 = get_indices t := by
  rw [set_coords]
  split
  · exact ⟨rfl, rfl⟩
  · split
    · exact ⟨rfl, rfl⟩
    · exact ⟨rfl, rfl⟩

/-- C7 (amended): the 1e6 magnitude guard applies exactly to the
coordinates supplied at build time; a query center is wrapped during
search without any magnitude check, so search never raises a RangeError. -/
theorem C7_range_guard_build_only (t : PeriodicKDTree) (coords : List (List ℚ))
    (center : List ℚ) (radius : ℚ) :
    (((set_coords t coords).2 = some PKTError.range) ↔
      ∃ q ∈ coords.flatten, q ≤ -1000000 ∨ 1000000 ≤ q) ∧
    (search t center radius).2 ≠ some PKTError.range := by
  constructor
  · rw [set_coords]
    split
    · rename_i hq
      simpa using hq
    · rename_i hq
      split
      · simpa using hq
      · simpa using hq
  · by_cases hb : t.built = false
    · simp [search, hb]
    · by_cases hc : center.length = 3
      · rw [search_built_eval t center radius (by simpa using hb) hc]
        simp
      · rw [search, if_neg hb, if_pos hc]
        simp

theorem range5 : List.range 5 = [0, 1, 2, 3, 4] := rfl

theorem demoTree_eval :
    demoTree = ⟨⟨10, 10, 10⟩, true,
      [⟨2, 2, 2⟩, ⟨5, 5, 5⟩, ⟨11/10, 11/10, 11/10⟩, ⟨1, 9, 1⟩, ⟨1, 1, 3⟩], some []⟩ := by
  rw [demoTree, demoPoints, set_coords]
  rw [if_neg (by norm_num), if_neg (by norm_num)]
  norm_num [freshTree, rowVec, wrap, wrap1, Int.floor_eq_iff]

theorem demoSearch_eval :
    search demoTree [11, 2, 2] (3/2) = ({ demoTree with indices := some [0, 2, 4] }, none) := by
  rw [search_built_eval demoTree [11, 2, 2] (3/2) (by rw [demoTree_eval]) (by rfl)]
  have hw : wrap demoTree.box (centerVec [11, 2, 2]) = ⟨1, 2, 2⟩ := by
    rw [demoTree_eval]
    norm_num [wrap, wrap1, centerVec, Int.floor_eq_iff, List.getD]
  have hq : kdtQuery demoTree.data ⟨1, 2, 2⟩ (3/2) = [0, 2, 4] := by
    rw [demoTree_eval]
    norm_num [kdtQuery, sqDist, range5, List.getD, List.filter]
  rw [hw, hq]
  rfl

/-- C4 counterexample: on the demonstration data, search([11,2,2], 1.5)
returns the indices 0, 2 and 4, not the index 0 alone: the points
[1.1,1.1,1.1] and [21,21,3] (wrapped [1,1,3]) also lie within 1.5 of the
wrapped center [1,2,2]. -/
theorem C4_returns_three_indices :
    (search demoTree [11, 2, 2] (3/2)).2 = none ∧
    (search demoTree [11, 2, 2] (3/2)).1.indices = some [0, 2, 4] ∧
    (search demoTree [11, 2, 2] (3/2)).1.indices ≠ some [0] := by
  rw [demoSearch_eval]
  refine ⟨rfl, rfl, by simp⟩

/-- C4 as amended: search([11,2,2], 1.5) on the demonstration data
completes and returns exactly the ascending index list [0, 2, 4]. -/
theorem C4_amended_result :
    (search demoTree [11, 2, 2] (3/2)).2 = none ∧
    (search demoTree [11, 2, 2] (3/2)).1.indices = some [0, 2, 4] := by
  rw [demoSearch_eval]
  exact ⟨rfl, rfl⟩

theorem treeNearUpper_eval :
    treeNearUpper = ⟨⟨10, 10, 10⟩, true, [⟨9, 5, 5⟩], some []⟩ := by
  rw [treeNearUpper, set_coords]
  rw [if_neg (by norm_num), if_neg (by norm_num)]
  norm_num [freshTree, rowVec, wrap, wrap1, Int.floor_eq_iff]

theorem upperCenters_eval :
    find_centers treeNearUpper.box ⟨0, 5, 5⟩ 2 = [⟨0, 5, 5⟩, ⟨10, 5, 5⟩] := by
  have hw : wrap treeNearUpper.box ⟨0, 5, 5⟩ = ⟨0, 5, 5⟩ := by
    rw [treeNearUpper_eval]
    norm_num [wrap, wrap1, Int.floor_eq_iff]
  have hds : baseDisplacements treeNearUpper.box ⟨0, 5, 5⟩ 2 = [⟨10, 0, 0⟩] := by
    rw [treeNearUpper_eval]
    norm_num [baseDisplacements, axisDisp1, extent1, List.filterMap]
  rw [find_centers, hw, hds, combineAll_single]
  norm_num [Vec3.add_def]

/-- C1 at the failing input: with the single stored point [9,5,5] and the
query center [0,5,5] at radius 2, the first image query (at the wrapped
center) finds nothing, the second (at the upper image [10,5,5]) finds
index 0; the source keeps only the first result, so it stores the empty
list where the union of the per-image queries is [0]. -/
theorem C1_first_query_only :
    (search treeNearUpper [0, 5, 5] 2).2 = none ∧
    (search treeNearUpper [0, 5, 5] 2).1.indices = some [] ∧
    unionSearch treeNearUpper ⟨0, 5, 5⟩ 2 = [0] := by
  have hq1 : kdtQuery treeNearUpper.data ⟨0, 5, 5⟩ 2 = [] := by
    rw [treeNearUpper_eval]
    norm_num [kdtQuery, sqDist, List.getD, List.filter, List.range]
  have hq2 : kdtQuery treeNearUpper.data ⟨10, 5, 5⟩ 2 = [0] := by
    rw [treeNearUpper_eval]
    norm_num [kdtQuery, sqDist, List.getD, List.filter, List.range]
  refine ⟨?_, ?_, ?_⟩
  · rw [search_built_eval treeNearUpper [0, 5, 5] 2 (by rw [treeNearUpper_eval]) (by rfl)]
  · rw [search_built_eval treeNearUpper [0, 5, 5] 2 (by rw [treeNearUpper_eval]) (by rfl)]
    have hw : wrap treeNearUpper.box (centerVec [0, 5, 5]) = ⟨0, 5, 5⟩ := by
      rw [treeNearUpper_eval]
      norm_num [wrap, wrap1, centerVec, List.getD, Int.floor_eq_iff]
    rw [hw, hq1]
    rfl
  · rw [unionSearch, upperCenters_eval]
    rw [List.map_cons, List.map_cons, List.map_nil, hq1, hq2]
    rfl

theorem treeAtLower_eval :
    treeAtLower = ⟨⟨10, 10, 10⟩, true, [⟨0, 5, 5⟩], some []⟩ := by
  rw [treeAtLower, set_coords]
  rw [if_neg (by norm_num), if_neg (by norm_num)]
  norm_num [freshTree, rowVec, wrap, wrap1, Int.floor_eq_iff]

/-- C2 at the failing input: one stored point [0,5,5], query center
[9,5,5], radius 2 (at most half the smallest box length 10).  The
brute-force minimum-image result is [0] (separation 1 across the
boundary), but the source stores only the first image query, which finds
nothing. -/
theorem C2_misses_min_image :
    (2 : ℚ) ≤ 10 / 2 ∧
    (search treeAtLower [9, 5, 5] 2).2 = none ∧
    (search treeAtLower [9, 5, 5] 2).1.indices = some [] ∧
    bruteForceSearch treeAtLower.box treeAtLower.data ⟨9, 5, 5⟩ 2 = [0] := by
  refine ⟨by norm_num, ?_, ?_, ?_⟩
  · rw [search_built_eval treeAtLower [9, 5, 5] 2 (by rw [treeAtLower_eval]) (by rfl)]
  · rw [search_built_eval treeAtLower [9, 5, 5] 2 (by rw [treeAtLower_eval]) (by rfl)]
    have hw : wrap treeAtLower.box (centerVec [9, 5, 5]) = ⟨9, 5, 5⟩ := by
      rw [treeAtLower_eval]
      norm_num [wrap, wrap1, centerVec, List.getD, Int.floor_eq_iff]
    have hq1 : kdtQuery treeAtLower.data ⟨9, 5, 5⟩ 2 = [] := by
      rw [treeAtLower_eval]
      norm_num [kdtQuery, sqDist, List.getD, List.filter, List.range]
    rw [hw, hq1]
    rfl
  · rw [treeAtLower_eval]
    norm_num [bruteForceSearch, minImageSq, minImageSq1, List.getD, List.filter,
      List.range, Int.floor_eq_iff, min_def]

theorem treeMid_eval : treeMid = ⟨⟨10, 10, 10⟩, true, [⟨2, 2, 2⟩], some []⟩ := by
  rw [treeMid, set_coords]
  rw [if_neg (by norm_num), if_neg (by norm_num)]
  norm_num [freshTree, rowVec, wrap, wrap1, Int.floor_eq_iff]

theorem searchMid_eval :
    search treeMid [2, 2, 2] 1 = ({ treeMid with indices := some [0] }, none) := by
  rw [search_built_eval treeMid [2, 2, 2] 1 (by rw [treeMid_eval]) (by rfl)]
  have hw : wrap treeMid.box (centerVec [2, 2, 2]) = ⟨2, 2, 2⟩ := by
    rw [treeMid_eval]
    norm_num [wrap, wrap1, centerVec, List.getD, Int.floor_eq_iff]
  have hq : kdtQuery treeMid.data ⟨2, 2, 2⟩ 1 = [0] := by
    rw [treeMid_eval]
    norm_num [kdtQuery, sqDist, List.getD, List.filter, List.range]
  rw [hw, hq]
  rfl

/-- C5 counterexample: build with point [2,2,2], search around it so the
stored result is [0], then rebuild with the new point set [[5,5,5]].  The
rebuild succeeds, yet get_indices still returns [0], the result of the
search against the old point set. -/
theorem C5_old_result_survives_rebuild :
    get_indices (search treeMid [2, 2, 2] 1).1 = some [0] ∧
    (set_coords (search treeMid [2, 2, 2] 1).1 [[5, 5, 5]]).2 = none ∧
    get_indices (set_coords (search treeMid [2, 2, 2] 1).1 [[5, 5, 5]]).1 = some [0] := by
  rw [searchMid_eval]
  refine ⟨rfl, ?_, ?_⟩
  · rw [set_coords, if_neg (by norm_num), if_neg (by norm_num)]
  · rw [set_coords, if_neg (by norm_num), if_neg (by norm_num)]
    rfl

/-- C7 counterexample: on a built tree, a query center with a coordinate
far beyond the 1e6 bound is not rejected; the search completes without
any error, because only set_coords carries the magnitude guard. -/
theorem C7_big_center_not_rejected :
    (1000000 : ℚ) < 2000001 ∧
    (search treeMid [2000001, 2, 2] 1).2 = none := by
  refine ⟨by norm_num, ?_⟩
  rw [search_built_eval treeMid [2000001, 2, 2] 1 (by rw [treeMid_eval]) (by rfl)]

/-- C6 witness: the sortedness statement applied to a concrete completed
search. -/
theorem C6_result_sorted_nodup_witness :
    ∃ l, (search treeMid [2, 2, 2] 1).1.indices = some l ∧ l.Nodup ∧ l.Sorted (· ≤ ·) :=
  C6_result_sorted_nodup treeMid [2, 2, 2] 1
    (by rw [search_built_eval treeMid [2, 2, 2] 1 (by rw [treeMid_eval]) (by rfl)])

/-- C10 witness: a shape error on a built tree holding the result [0]
leaves the state and the stored result untouched. -/
theorem C10_error_leaves_result_witness :
    (search treeWithResult [1, 2] 1).1 = treeWithResult ∧
    get_indices (search treeWithResult [1, 2] 1).1 = get_indices treeWithResult :=
  C10_error_leaves_result treeWithResult [1, 2] 1 PKTError.shape rfl

/-- C3: for every center and radius, find_centers returns exactly 2^k
vectors where k is the number of boundary-adjacent axes (the length of the
per-axis displacement list): the wrapped center itself plus, for each
non-empty subset of the k per-axis displacements, the wrapped center
translated by the sum of that subset; the image set has 1 to 8 elements. -/
theorem C3_find_centers_powerset (box center : Vec3) (radius : ℚ) :
    (find_centers box center radius).length =
      2 ^ (baseDisplacements box (wrap box center) radius).length ∧
    1 ≤ (find_centers box center radius).length ∧
    (find_centers box center radius).length ≤ 8 ∧
    (∀ v, v ∈ find_centers box center radius ↔
      v = wrap box center ∨
      ∃ s ∈ (baseDisplacements box (wrap box center) radius).sublists,
        s ≠ [] ∧ v = wrap box center + vecSum s) := by
  have hlen := baseDisplacements_len box (wrap box center) radius
  obtain ⟨h1, h2⟩ :=
    centersSubsets (wrap box center) (baseDisplacements box (wrap box center) radius) hlen
  have hfc : find_centers box center radius =
      wrap box center ::
        (combineAll (baseDisplacements box (wrap box center) radius)).map
          (fun d => wrap box center + d) := rfl
  rw [hfc]
  refine ⟨h1, ?_, ?_, h2⟩
  · rw [h1]
    exact Nat.one_le_two_pow
  · rw [h1]
    calc 2 ^ (baseDisplacements box (wrap box center) radius).length
        ≤ 2 ^ 3 := Nat.pow_le_pow_right (by norm_num) hlen
      _ = 8 := by norm_num
